import Mathlib

/-!
Verification of the Chicago crime dashboard (`apps/dashboard/app.py`).

The script is embedded shallowly:
* a CSV row becomes the structure `Row` (the eight columns selected by
  `usecols`), and the loader's derived columns become `DRow`;
* `pd.to_datetime` timestamps are represented as seconds since the Unix
  epoch; `dt.month`, `dt.hour` and `dt.day_name()` are computed by civil
  calendar arithmetic (`civilMonth`, `hourOfDay`, `dayName`);
* the filesystem is a function from paths to optional zip archives, an
  archive being its ordered list of entries;
* pandas DataFrames become `List`s of rows, boolean-mask filtering becomes
  `List.filter`, `groupby`/`size` becomes counting, and `reindex` becomes a
  lookup with a default over the full product index.
-/

/-- A raw row of the incident table: the eight columns passed to
`pd.read_csv(..., usecols=cols)`.  The `Date` field holds the parsed
timestamp as seconds since the Unix epoch. -/
structure Row where
  date : Nat
  primaryType : String
  description : String
  arrest : Bool
  district : Option Int
  latitude : Option Float
  longitude : Option Float
  locationDescription : String

/-- The civil month (1..12) of a day count since 1970-01-01, following the
standard days-to-civil conversion used by datetime libraries. -/
def civilMonth (days : Nat) : Nat :=
  let z := days + 719468
  let era := z / 146097
  let doe := z - era * 146097
  let yoe := (doe - doe / 1460 + doe / 36524 - doe / 146096) / 365
  let doy := doe - (365 * yoe + yoe / 4 - yoe / 100)
  let mp := (5 * doy + 2) / 153
  if mp < 10 then mp + 3 else mp - 9

/-- The hour of day (0..23) of an epoch-seconds timestamp. -/
def hourOfDay (secs : Nat) : Nat := secs % 86400 / 3600

/-- The English weekday names in the order used by the dashboard's heatmap
(`days = ['Monday', ..., 'Sunday']`), which is also pandas'
`day_name()` vocabulary. -/
def dayNamesList : List String :=
  ["Monday", "Tuesday", "Wednesday", "Thursday", "Friday", "Saturday", "Sunday"]

/-- The English weekday name of a day count since the epoch
(1970-01-01 was a Thursday, index 3 with Monday = 0). -/
def dayName (days : Nat) : String := dayNamesList.getD ((days + 3) % 7) ""

theorem civilMonth_range (days : Nat) : 1 ≤ civilMonth days ∧ civilMonth days ≤ 12 := by
  simp only [civilMonth]
  split <;> omega

theorem hourOfDay_lt (secs : Nat) : hourOfDay secs < 24 := by
  unfold hourOfDay
  omega

theorem dayName_mem (days : Nat) : dayName days ∈ dayNamesList := by
  unfold dayName
  have h : (days + 3) % 7 = 0 ∨ (days + 3) % 7 = 1 ∨ (days + 3) % 7 = 2 ∨
      (days + 3) % 7 = 3 ∨ (days + 3) % 7 = 4 ∨ (days + 3) % 7 = 5 ∨
      (days + 3) % 7 = 6 := by omega
  rcases h with h | h | h | h | h | h | h <;> rw [h] <;> simp [dayNamesList]

/-- A row of the loaded table after the loader's derivations: the raw
columns plus `Month_Num = Date.dt.month`, `Hour = Date.dt.hour` and
`DayOfWeek = Date.dt.day_name()`. -/
structure DRow where
  date : Nat
  primaryType : String
  description : String
  arrest : Bool
  district : Option Int
  latitude : Option Float
  longitude : Option Float
  locationDescription : String
  monthNum : Nat
  hour : Nat
  dayOfWeek : String

/-- The loader's column derivation: parse `Date` (already held as an epoch
timestamp) and attach the three derived columns. -/
def derive (r : Row) : DRow :=
  { date := r.date
    primaryType := r.primaryType
    description := r.description
    arrest := r.arrest
    district := r.district
    latitude := r.latitude
    longitude := r.longitude
    locationDescription := r.locationDescription
    monthNum := civilMonth (r.date / 86400)
    hour := hourOfDay r.date
    dayOfWeek := dayName (r.date / 86400) }

/-- The eight column names in `cols`, passed to `usecols`. -/
def usecols : List String :=
  ["Date", "Primary Type", "Description", "Arrest", "District",
   "Latitude", "Longitude", "Location Description"]

/-- The column names of the table `load_data` returns: the eight selected
columns followed by the three assignments
`df['Month_Num'] = ...`, `df['Hour'] = ...`, `df['DayOfWeek'] = ...`. -/
def loadedCols : List String := usecols ++ ["Month_Num", "Hour", "DayOfWeek"]

/-- An entry of a zip archive: its name and, when it is a CSV, the rows it
parses to. -/
structure Entry where
  name : String
  rows : List Row

/-- A filesystem: each path either holds a zip archive (its ordered entry
list, as returned by `namelist()`) or does not exist. -/
def FileSys : Type := String → Option (List Entry)

/-- Model of `os.path.exists`. -/
def pathExists (fs : FileSys) (p : String) : Bool := (fs p).isSome

/-- Model of `os.path.join` for the two search directories used by the script. -/
def pathJoin (d f : String) : String := d ++ "/" ++ f

/-- The `possible_files` list built inside `load_data`. -/
def possible_files (year : Nat) : List String :=
  ["chicago_crime_" ++ toString year ++ ".csv.zip",
   "chicago_crime_" ++ toString year ++ ".zip"]

/-- The `search_dirs` list built inside `load_data`. -/
def search_dirs : List String := [".", "split_data_by_year"]

/-- The inner loop of the locator: try each candidate file name inside one
directory, stopping at the first existing path. -/
def locateIn (fs : FileSys) (d : String) : List String → Option String
  | [] => none
  | f :: rest =>
      if pathExists fs (pathJoin d f) then some (pathJoin d f)
      else locateIn fs d rest

/-- The outer loop of the locator: try each search directory in order,
stopping as soon as the inner loop found a path (`if found_path: break`). -/
def locateDirs (fs : FileSys) (files : List String) : List String → Option String
  | [] => none
  | d :: rest =>
      match locateIn fs d files with
      | some p => some p
      | none => locateDirs fs files rest

/-- The archive locator of `load_data`: the nested loop over `search_dirs`
and `possible_files` that sets `found_path`. -/
def locate (fs : FileSys) (year : Nat) : Option String :=
  locateDirs fs (possible_files year) search_dirs

/-- Python's `str.endswith`, on the character lists of the strings. -/
def strEndsWith (s suffix : String) : Bool := suffix.data.isSuffixOf s.data

/-- Python's `str.startswith`, on the character lists of the strings. -/
def strStartsWith (s pre : String) : Bool := pre.data.isPrefixOf s.data

/-- The predicate of the `csv_files` comprehension: a real CSV entry, not
macOS metadata
(`name.endswith('.csv') and not name.startswith('__MACOSX')`). -/
def isRealCsv (name : String) : Bool :=
  strEndsWith name ".csv" && !(strStartsWith name "__MACOSX")

/-- Definition of `load_data(year)`: locate the archive, pick the first real CSV entry,
read it with `usecols`, and derive `Month_Num`, `Hour`, `DayOfWeek`;
`None` when no archive or no CSV entry is found. -/
def load_data (fs : FileSys) (year : Nat) : Option (List DRow) :=
  match locate fs year with
  | none => none
  | some found_path =>
    match fs found_path with
    | none => none
    | some entries =>
      match entries.filter (fun e => isRealCsv e.name) with
      | [] => none
      | e :: _ => some (e.rows.map derive)

/-- The three options of the `Arrest Status` radio control. -/
inductive ArrestChoice where
  | all
  | yes
  | no
deriving DecidableEq

/-- The boolean mask built by the filter section:
`mask = isin(sel_types)`, then `&= District.isin(sel_districts)` when the
district list is non-empty (pandas `isin` is false on a null district),
then `&= (Arrest == True)` or `&= (Arrest == False)` per the radio. -/
def filterMask (sel_types : List String) (sel_districts : List Int)
    (arrest : ArrestChoice) (r : DRow) : Bool :=
  let mask := sel_types.contains r.primaryType
  let mask := if sel_districts.isEmpty then mask
    else mask && (match r.district with
      | some d => sel_districts.contains d
      | none => false)
  match arrest with
  | .all => mask
  | .yes => mask && r.arrest == true
  | .no => mask && r.arrest == false

/-- The filtered view, `filtered_df = df[mask]`. -/
def filtered_df (df : List DRow) (sel_types : List String)
    (sel_districts : List Int) (arrest : ArrestChoice) : List DRow :=
  df.filter (filterMask sel_types sel_districts arrest)

/-- Whether a row has both coordinates, i.e. survives
`dropna(subset=['Latitude','Longitude'])`. -/
def hasGeo (r : DRow) : Bool := r.latitude.isSome && r.longitude.isSome

/-- The geolocated subset,
`map_data = filtered_df.dropna(subset=['Latitude','Longitude'])`. -/
def map_data (fdf : List DRow) : List DRow := fdf.filter hasGeo

/-- The map section after the sampling step: `df.sample(20000)` draws a
uniform random subset of exactly 20000 rows, modelled deterministically by
the first 20000 rows (only its size and the caption are reasoned about);
the boolean records whether the sampling caption is shown. -/
def mapLayerData (fdf : List DRow) : List DRow × Bool :=
  let md := map_data fdf
  if md.length > 20000 then (md.take 20000, true) else (md, false)

/-- The `Total Incidents` metric: `len(filtered_df)`. -/
def totalIncidents (fdf : List DRow) : Nat := fdf.length

/-- The numerator of the `Arrest Rate` metric: the rows `Arrest.mean()`
averages over (all filtered rows, geolocated or not). -/
def arrestCount (fdf : List DRow) : Nat := (fdf.filter (fun r => r.arrest)).length

/-- The monthly-trend count for one month:
`filtered_df.groupby('Month_Num').size()` at that month. -/
def trendCount (fdf : List DRow) (m : Nat) : Nat :=
  (fdf.filter (fun r => r.monthNum == m)).length

/-- The crime-types bar count for one type:
`filtered_df['Primary Type'].value_counts()` at that type. -/
def typeCount (fdf : List DRow) (t : String) : Nat :=
  (fdf.filter (fun r => r.primaryType == t)).length

/-- The heatmap count for one day/hour pair:
`filtered_df.groupby(['DayOfWeek','Hour']).size()` at that pair. -/
def heatCount (fdf : List DRow) (d : String) (h : Nat) : Nat :=
  (fdf.filter (fun r => r.dayOfWeek == d && r.hour == h)).length

/-- The day/hour key of a row, as grouped by the heatmap. -/
def heatKey (r : DRow) : String × Nat := (r.dayOfWeek, r.hour)

/-- The grouped heat table before reindexing:
`filtered_df.groupby(['DayOfWeek','Hour']).size().reset_index(name='Counts')` —
one entry per day/hour pair present in the data, carrying its count. -/
def heatGrouped (fdf : List DRow) : List ((String × Nat) × Nat) :=
  ((fdf.map heatKey).dedup).map (fun p => (p, heatCount fdf p.1 p.2))

/-- The full 7 × 24 index:
`pd.MultiIndex.from_product([days, range(24)])`. -/
def fullIdx : List (String × Nat) :=
  dayNamesList.flatMap (fun d => (List.range 24).map (fun h => (d, h)))

/-- The reindexed heat table:
`heat.set_index([...]).reindex(full_idx, fill_value=0).reset_index()` —
every pair of the full index, with its grouped count when present and 0
otherwise. -/
def heatReindexed (fdf : List DRow) : List ((String × Nat) × Nat) :=
  fullIdx.map (fun p => (p, ((heatGrouped fdf).lookup p).getD 0))

/-- The distinct values of a series that attain its maximal multiplicity:
the value set of pandas `Series.mode()` (order immaterial here). -/
def seriesMode {α : Type} [DecidableEq α] (l : List α) : List α :=
  l.dedup.filter (fun v => l.count v = (l.dedup.map (fun w => l.count w)).foldr max 0)

/-- The `Top Location` card value:
`filtered_df['Location Description'].mode()[0] if not filtered_df.empty
else "N/A"`; `none` models the error of indexing an empty series. -/
def topLocation (fdf : List DRow) : Option String :=
  if fdf.isEmpty then some "N/A"
  else (seriesMode (fdf.map (fun r => r.locationDescription))).head?

/-- The `Peak Hour` card value:
`filtered_df['Hour'].mode()[0] if not filtered_df.empty else "N/A"`,
rendered to a string; `none` models the error of indexing an empty
series. -/
def peakHour (fdf : List DRow) : Option String :=
  if fdf.isEmpty then some "N/A"
  else ((seriesMode (fdf.map (fun r => r.hour))).head?).map toString

/-- The session state relevant to the dashboard: the cached full-year
table produced by `load_data` (`@st.cache_data`). -/
structure SessionState where
  cache : List DRow

/-- One dashboard interaction: read the cached table, build the filtered
view, and return the (unchanged) state together with the transient view. -/
def applyFilters (s : SessionState) (sel_types : List String)
    (sel_districts : List Int) (arrest : ArrestChoice) :
    SessionState × List DRow :=
  (s, filtered_df s.cache sel_types sel_districts arrest)

/-- The Dashboard branch up to its halting decision: `load_data` is called
in the sidebar; `None` makes it show an error and `st.stop()` (modelled by
`none`: no downstream component executes); otherwise the filtered view is
built and every downstream component executes over it (modelled by
`some view`) — the script has no emptiness halt on this path. -/
def dashboardRender (fs : FileSys) (year : Nat) (sel_types : List String)
    (sel_districts : List Int) (arrest : ArrestChoice) :
    Option (List DRow) :=
  match load_data fs year with
  | none => none
  | some df => some (filtered_df df sel_types sel_districts arrest)

/-- C1: a row of the loaded table appears in the filtered view iff its
Primary Type is among the selected types, the selected-district list is
empty or its District is one of the selected districts, and the arrest
choice is All, or Yes and the row's Arrest is true, or No and the row's
Arrest is false. -/
theorem mem_filtered_df_iff (df : List DRow) (sel_types : List String)
    (sel_districts : List Int) (arrest : ArrestChoice) (r : DRow) :
    r ∈ filtered_df df sel_types sel_districts arrest ↔
      r ∈ df ∧ r.primaryType ∈ sel_types ∧
        (sel_districts = [] ∨ ∃ d, r.district = some d ∧ d ∈ sel_districts) ∧
        (arrest = .all ∨ (arrest = .yes ∧ r.arrest = true) ∨
          (arrest = .no ∧ r.arrest = false)) := by
  simp only [filtered_df, List.mem_filter, filterMask]
  refine and_congr_right (fun _ => ?_)
  cases arrest <;> rcases hd : r.district with _ | d <;>
    rcases hsd : sel_districts with _ | ⟨d0, ds⟩ <;>
    cases har : r.arrest <;>
    simp [List.isEmpty_iff, hd, har, List.contains, List.elem_iff]

theorem pathJoin_append (p q y z r : String) (h : p ++ "/" ++ q = r) :
    pathJoin p (q ++ y ++ z) = r ++ y ++ z := by
  show p ++ "/" ++ (q ++ y ++ z) = r ++ y ++ z
  rw [← String.append_assoc, ← String.append_assoc, h]

/-- C2: the locator probes exactly the four candidate paths obtained by
pairing the directories `.` and `split_data_by_year` (in that order) with
the file names `chicago_crime_{year}.csv.zip` and
`chicago_crime_{year}.zip` (in that order), selecting the first existing
one; when no candidate exists, `load_data` returns `None`. -/
theorem load_data_locator_spec (fs : FileSys) (year : Nat) :
    locate fs year =
      (["./chicago_crime_" ++ toString year ++ ".csv.zip",
        "./chicago_crime_" ++ toString year ++ ".zip",
        "split_data_by_year/chicago_crime_" ++ toString year ++ ".csv.zip",
        "split_data_by_year/chicago_crime_" ++ toString year ++ ".zip"]).find?
        (pathExists fs) ∧
      (locate fs year = none → load_data fs year = none) := by
  have e1 : pathJoin "." ("chicago_crime_" ++ toString year ++ ".csv.zip") =
      "./chicago_crime_" ++ toString year ++ ".csv.zip" :=
    pathJoin_append _ _ _ _ _ (by decide)
  have e2 : pathJoin "." ("chicago_crime_" ++ toString year ++ ".zip") =
      "./chicago_crime_" ++ toString year ++ ".zip" :=
    pathJoin_append _ _ _ _ _ (by decide)
  have e3 : pathJoin "split_data_by_year"
        ("chicago_crime_" ++ toString year ++ ".csv.zip") =
      "split_data_by_year/chicago_crime_" ++ toString year ++ ".csv.zip" :=
    pathJoin_append _ _ _ _ _ (by decide)
  have e4 : pathJoin "split_data_by_year"
        ("chicago_crime_" ++ toString year ++ ".zip") =
      "split_data_by_year/chicago_crime_" ++ toString year ++ ".zip" :=
    pathJoin_append _ _ _ _ _ (by decide)
  constructor
  · simp only [locate, search_dirs, possible_files, locateDirs, locateIn,
      e1, e2, e3, e4]
    cases h1 : pathExists fs
        ("./chicago_crime_" ++ toString year ++ ".csv.zip") <;>
      cases h2 : pathExists fs
        ("./chicago_crime_" ++ toString year ++ ".zip") <;>
      cases h3 : pathExists fs
        ("split_data_by_year/chicago_crime_" ++ toString year ++ ".csv.zip") <;>
      cases h4 : pathExists fs
        ("split_data_by_year/chicago_crime_" ++ toString year ++ ".zip") <;>
      simp [List.find?, h1, h2, h3, h4]
  · intro h
    simp [load_data, h]

/-- C2 witness: on an empty filesystem no candidate path exists and
`load_data` returns `None`. -/
theorem load_data_locator_spec_witness :
    load_data (fun _ => none) 2024 = none :=
  (load_data_locator_spec (fun _ => none) 2024).2 rfl

theorem head?_filter_eq_find? {α : Type} (p : α → Bool) (l : List α) :
    (l.filter p).head? = l.find? p := by
  induction l with
  | nil => rfl
  | cons a t ih =>
      by_cases h : p a <;>
        simp [List.filter_cons, h, ih, List.find?_cons_of_pos,
          List.find?_cons_of_neg]

/-- C3: when an archive has been located, `load_data` reads exactly the
first entry of its name list that ends with `.csv` and does not start with
`__MACOSX`; the entry read never starts with `__MACOSX`, and when no such
entry exists `load_data` returns `None`. -/
theorem load_data_extractor_spec (fs : FileSys) (year : Nat) (p : String)
    (entries : List Entry) (hp : locate fs year = some p)
    (hfs : fs p = some entries) :
    (load_data fs year =
      match entries.find? (fun e => strEndsWith e.name ".csv" &&
          !(strStartsWith e.name "__MACOSX")) with
      | some e => some (e.rows.map derive)
      | none => none) ∧
    (∀ e, entries.find? (fun e => strEndsWith e.name ".csv" &&
        !(strStartsWith e.name "__MACOSX")) = some e →
      strEndsWith e.name ".csv" = true ∧ strStartsWith e.name "__MACOSX" = false) := by
  constructor
  · show load_data fs year = _
    unfold load_data
    rw [hp]
    dsimp only
    rw [hfs]
    dsimp only
    have hf : entries.filter (fun e => isRealCsv e.name) =
        entries.filter (fun e => strEndsWith e.name ".csv" &&
          !(strStartsWith e.name "__MACOSX")) := rfl
    rw [hf]
    rcases hcase : entries.filter (fun e => strEndsWith e.name ".csv" &&
        !(strStartsWith e.name "__MACOSX")) with _ | ⟨e, rest⟩
    · have : entries.find? (fun e => strEndsWith e.name ".csv" &&
          !(strStartsWith e.name "__MACOSX")) = none := by
        rw [← head?_filter_eq_find?, hcase]; rfl
      rw [this, hcase]
    · have : entries.find? (fun e => strEndsWith e.name ".csv" &&
          !(strStartsWith e.name "__MACOSX")) = some e := by
        rw [← head?_filter_eq_find?, hcase]; rfl
      rw [this, hcase]
  · intro e he
    have := List.find?_some he
    constructor
    · exact (Bool.and_eq_true _ _ |>.mp this).1
    · have h2 := (Bool.and_eq_true _ _ |>.mp this).2
      simpa using h2

/-- C3 witness: a concrete archive whose first entry is macOS metadata and
whose second is the real CSV; the extractor reads the second entry. -/
theorem load_data_extractor_spec_witness :
    load_data
      (fun q => if q = "./chicago_crime_2017.csv.zip"
        then some [⟨"__MACOSX/._x.csv", []⟩, ⟨"data.csv", []⟩]
        else none) 2017 = some [] := by
  have h := load_data_extractor_spec
    (fun q => if q = "./chicago_crime_2017.csv.zip"
      then some [⟨"__MACOSX/._x.csv", []⟩, ⟨"data.csv", []⟩]
      else none) 2017 "./chicago_crime_2017.csv.zip"
    [⟨"__MACOSX/._x.csv", []⟩, ⟨"data.csv", []⟩] (by decide) rfl
  have p1 : (strEndsWith "__MACOSX/._x.csv" ".csv" &&
      !(strStartsWith "__MACOSX/._x.csv" "__MACOSX")) = false := by decide
  have p2 : (strEndsWith "data.csv" ".csv" &&
      !(strStartsWith "data.csv" "__MACOSX")) = true := by decide
  rw [h.1]
  simp [List.find?, p1, p2]

/-- C4 counterexample: the loaded table has no column named `Month` — the
loader's month column is `Month_Num`. -/
theorem month_column_name_cex : ¬ ("Month" ∈ loadedCols) := by decide

/-- C4 (amended): the loader parses `Date` and derives columns named
`Month_Num`, `Hour` and `DayOfWeek` whose values are, respectively, the
calendar month (1-12) of `Date`, the hour of day (0-23) of `Date`, and the
English weekday name of `Date`. -/
theorem derive_columns_spec (fs : FileSys) (year : Nat) (df : List DRow)
    (h : load_data fs year = some df) :
    "Month_Num" ∈ loadedCols ∧ "Hour" ∈ loadedCols ∧ "DayOfWeek" ∈ loadedCols ∧
    ∀ r ∈ df, r.monthNum = civilMonth (r.date / 86400) ∧
      1 ≤ r.monthNum ∧ r.monthNum ≤ 12 ∧
      r.hour = hourOfDay r.date ∧ r.hour < 24 ∧
      r.dayOfWeek = dayName (r.date / 86400) ∧ r.dayOfWeek ∈ dayNamesList := by
  refine ⟨by decide, by decide, by decide, ?_⟩
  have hmap : ∃ rows : List Row, df = rows.map derive := by
    unfold load_data at h
    split at h
    · exact absurd h (by simp)
    · split at h
      · exact absurd h (by simp)
      · split at h
        · exact absurd h (by simp)
        · exact ⟨_, (Option.some_inj.mp h).symm⟩
  rcases hmap with ⟨rows, rfl⟩
  intro r hr
  rw [List.mem_map] at hr
  rcases hr with ⟨r0, _, rfl⟩
  exact ⟨rfl, (civilMonth_range _).1, (civilMonth_range _).2, rfl,
    hourOfDay_lt _, rfl, dayName_mem _⟩

/-- C4 witness: a one-row archive for 2024; the loaded row carries the
derived columns with in-range values. -/
theorem derive_columns_spec_witness :
    "Month_Num" ∈ loadedCols ∧ "Hour" ∈ loadedCols ∧ "DayOfWeek" ∈ loadedCols ∧
    ∀ r ∈ [derive ⟨1704067200, "THEFT", "d", true, some 1, none, none,
        "STREET"⟩],
      r.monthNum = civilMonth (r.date / 86400) ∧
      1 ≤ r.monthNum ∧ r.monthNum ≤ 12 ∧
      r.hour = hourOfDay r.date ∧ r.hour < 24 ∧
      r.dayOfWeek = dayName (r.date / 86400) ∧ r.dayOfWeek ∈ dayNamesList :=
  derive_columns_spec
    (fun q => if q = "./chicago_crime_2024.csv.zip"
      then some [⟨"crime.csv",
        [⟨1704067200, "THEFT", "d", true, some 1, none, none, "STREET"⟩]⟩]
      else none) 2024 _ rfl

theorem length_filter_split {α : Type} (p f : α → Bool) (l : List α) :
    (l.filter f).length =
      ((l.filter p).filter f).length +
        ((l.filter (fun a => !(p a))).filter f).length := by
  induction l with
  | nil => rfl
  | cons a t ih =>
      by_cases hp : p a <;> by_cases hf : f a <;>
        simp [List.filter_cons, hp, hf, ih] <;> omega

theorem length_split {α : Type} (p : α → Bool) (l : List α) :
    l.length = (l.filter p).length + (l.filter (fun a => !(p a))).length := by
  induction l with
  | nil => rfl
  | cons a t ih =>
      by_cases hp : p a <;> simp [List.filter_cons, hp, ih] <;> omega

/-- C5: a filtered row with a missing coordinate is excluded from the data
passed to the map layer, and from the map layer only: the total and arrest
metrics, the monthly trend, the crime-types counts and the hourly heatmap
all decompose over geolocated and non-geolocated rows alike, and the row
still contributes to each of them. -/
theorem map_excludes_geo_only (fdf : List DRow) (r : DRow)
    (h1 : r ∈ fdf) (h2 : r.latitude = none ∨ r.longitude = none) :
    r ∉ map_data fdf ∧
    (∀ s ∈ map_data fdf, s.latitude.isSome = true ∧ s.longitude.isSome = true) ∧
    totalIncidents fdf =
      (map_data fdf).length + (fdf.filter (fun s => !(hasGeo s))).length ∧
    arrestCount fdf =
      arrestCount (map_data fdf) +
        arrestCount (fdf.filter (fun s => !(hasGeo s))) ∧
    (∀ m, trendCount fdf m =
      trendCount (map_data fdf) m +
        trendCount (fdf.filter (fun s => !(hasGeo s))) m) ∧
    (∀ t, typeCount fdf t =
      typeCount (map_data fdf) t +
        typeCount (fdf.filter (fun s => !(hasGeo s))) t) ∧
    (∀ d h, heatCount fdf d h =
      heatCount (map_data fdf) d h +
        heatCount (fdf.filter (fun s => !(hasGeo s))) d h) ∧
    0 < totalIncidents fdf ∧
    0 < trendCount fdf r.monthNum ∧
    0 < typeCount fdf r.primaryType ∧
    0 < heatCount fdf r.dayOfWeek r.hour := by
  have hgeo : hasGeo r = false := by
    rcases h2 with h2 | h2 <;> simp [hasGeo, h2]
  refine ⟨?_, ?_, ?_, ?_, ?_, ?_, ?_, ?_, ?_, ?_, ?_⟩
  · intro hmem
    have := (List.mem_filter.mp hmem).2
    rw [hgeo] at this
    exact Bool.false_ne_true this
  · intro s hs
    have := (List.mem_filter.mp hs).2
    exact Bool.and_eq_true _ _ |>.mp this
  · exact length_split hasGeo fdf
  · exact length_filter_split hasGeo _ fdf
  · intro m; exact length_filter_split hasGeo _ fdf
  · intro t; exact length_filter_split hasGeo _ fdf
  · intro d h; exact length_filter_split hasGeo _ fdf
  · exact List.length_pos.mpr (List.ne_nil_of_mem h1)
  · exact List.length_pos.mpr (List.ne_nil_of_mem
      (List.mem_filter.mpr ⟨h1, by simp⟩))
  · exact List.length_pos.mpr (List.ne_nil_of_mem
      (List.mem_filter.mpr ⟨h1, by simp⟩))
  · exact List.length_pos.mpr (List.ne_nil_of_mem
      (List.mem_filter.mpr ⟨h1, by simp⟩))

/-- A sample loaded row without coordinates, used to instantiate the
geolocation invariant. -/
def sampleNoGeo : DRow :=
  derive ⟨1704067200, "THEFT", "d", true, some 1, none, none, "STREET"⟩

/-- C5 witness: the no-coordinate sample row is dropped from the map data
but still counted by the heatmap. -/
theorem map_excludes_geo_only_witness :
    sampleNoGeo ∈ [sampleNoGeo] ∧ sampleNoGeo.latitude = none ∧
    sampleNoGeo ∉ map_data [sampleNoGeo] ∧
    0 < heatCount [sampleNoGeo] sampleNoGeo.dayOfWeek sampleNoGeo.hour := by
  have h1 : sampleNoGeo ∈ [sampleNoGeo] := List.mem_singleton.mpr rfl
  have h2 : sampleNoGeo.latitude = none := rfl
  have h := map_excludes_geo_only [sampleNoGeo] sampleNoGeo h1 (Or.inl h2)
  exact ⟨h1, h2, h.1, h.2.2.2.2.2.2.2.2.2.2⟩

/-- C6: one filter interaction returns the session state unchanged — the
cached full-year table keeps every row, in order, and its length — and the
transient view only ever holds rows of the cache. -/
theorem applyFilters_preserves_cache (s : SessionState)
    (sel_types : List String) (sel_districts : List Int)
    (arrest : ArrestChoice) :
    (applyFilters s sel_types sel_districts arrest).1 = s ∧
    (applyFilters s sel_types sel_districts arrest).1.cache.length =
      s.cache.length ∧
    (∀ i, (applyFilters s sel_types sel_districts arrest).1.cache.get? i =
      s.cache.get? i) ∧
    (∀ r ∈ (applyFilters s sel_types sel_districts arrest).2, r ∈ s.cache) := by
  refine ⟨rfl, rfl, fun i => rfl, ?_⟩
  intro r hr
  exact (List.mem_filter.mp hr).1

/-- C7 evaluation at the failing input: a located archive whose CSV parses
to zero rows makes `load_data` return an empty table, and the Dashboard
path then builds the filtered view and runs the downstream components
(`some` view) instead of halting (`none`). -/
theorem empty_table_not_halted :
    load_data
      (fun q => if q = "./chicago_crime_2023.csv.zip"
        then some [⟨"crime.csv", []⟩] else none) 2023 = some [] ∧
    dashboardRender
      (fun q => if q = "./chicago_crime_2023.csv.zip"
        then some [⟨"crime.csv", []⟩] else none) 2023 ["THEFT"] []
      ArrestChoice.all = some [] :=
  ⟨rfl, rfl⟩

/-- C8: on a non-empty filtered view the map layer receives at most 20000
rows: beyond 20000 geolocated rows exactly 20000 are kept and the sampling
caption is shown, otherwise the geolocated subset is passed unchanged with
no caption. -/
theorem mapLayerData_cap (fdf : List DRow) (hne : fdf ≠ []) :
    (mapLayerData fdf).1.length ≤ 20000 ∧
    (20000 < (map_data fdf).length →
      (mapLayerData fdf).1.length = 20000 ∧ (mapLayerData fdf).2 = true) ∧
    ((map_data fdf).length ≤ 20000 →
      (mapLayerData fdf).1 = map_data fdf ∧ (mapLayerData fdf).2 = false) := by
  simp only [mapLayerData]
  by_cases hl : (map_data fdf).length > 20000
  · rw [if_pos hl]
    dsimp only
    simp only [List.length_take]
    refine ⟨by omega, fun _ => ⟨by omega, ?_⟩, fun hle => absurd hl (by omega)⟩
    trivial
  · rw [if_neg hl]
    dsimp only
    refine ⟨by omega, fun hgt => absurd hgt (by omega), fun _ => ⟨?_, ?_⟩⟩ <;>
      trivial

/-- C8 witness: a singleton view is passed to the map unchanged, without
the sampling caption. -/
theorem mapLayerData_cap_witness :
    [sampleNoGeo] ≠ ([] : List DRow) ∧
    (mapLayerData [sampleNoGeo]).1.length ≤ 20000 :=
  ⟨by simp, (mapLayerData_cap [sampleNoGeo] (by simp)).1⟩

theorem lookup_map_self {α β : Type} [DecidableEq α] [BEq α] [LawfulBEq α]
    (f : α → β) (l : List α) (q : α) :
    (l.map (fun p => (p, f p))).lookup q =
      if q ∈ l then some (f q) else none := by
  induction l with
  | nil => simp
  | cons a t ih =>
      by_cases hq : q = a
      · subst hq
        simp [List.lookup]
      · simp [List.lookup, beq_eq_false_iff_ne.mpr hq, ih, hq, List.mem_cons]

set_option maxRecDepth 4000 in
theorem fullIdx_length : fullIdx.length = 168 := by decide

theorem mem_fullIdx (d : String) (h : Nat) (hd : d ∈ dayNamesList)
    (hh : h < 24) : (d, h) ∈ fullIdx := by
  unfold fullIdx
  rw [List.mem_flatMap]
  exact ⟨d, hd, List.mem_map.mpr ⟨h, List.mem_range.mpr hh, rfl⟩⟩

theorem heatGrouped_lookup (fdf : List DRow) (p : String × Nat) :
    (heatGrouped fdf).lookup p =
      if p ∈ (fdf.map heatKey).dedup then some (heatCount fdf p.1 p.2)
      else none := by
  unfold heatGrouped
  rw [lookup_map_self (fun p => heatCount fdf p.1 p.2) _ p]

theorem heatCount_eq_zero_of_not_mem (fdf : List DRow) (d : String) (h : Nat)
    (hnm : (d, h) ∉ (fdf.map heatKey).dedup) : heatCount fdf d h = 0 := by
  unfold heatCount
  rw [List.length_eq_zero, List.filter_eq_nil_iff]
  intro r hr hpred
  apply hnm
  rw [List.mem_dedup, List.mem_map]
  refine ⟨r, hr, ?_⟩
  have := Bool.and_eq_true _ _ |>.mp hpred
  have h1 : r.dayOfWeek = d := by simpa using this.1
  have h2 : r.hour = h := by simpa using this.2
  simp [heatKey, h1, h2]

/-- C9: on a non-empty filtered view the reindexed heat table has exactly
168 rows — one per pair of the seven weekday names with each hour 0-23 —
each full-grid pair carries the number of filtered rows at that day/hour
(0 when the pair is absent from the grouped counts), and every grouped
pair keeps its grouped count. -/
theorem heatReindexed_spec (fdf : List DRow)
    (hwf : ∀ r ∈ fdf, r.dayOfWeek ∈ dayNamesList ∧ r.hour < 24)
    (hne : fdf ≠ []) :
    (heatReindexed fdf).length = 168 ∧
    (heatReindexed fdf).map Prod.fst = fullIdx ∧
    (∀ d h, d ∈ dayNamesList → h < 24 →
      (heatReindexed fdf).lookup (d, h) = some (heatCount fdf d h)) ∧
    (∀ p c, (p, c) ∈ heatGrouped fdf →
      (heatReindexed fdf).lookup p = some c) := by
  have hlook : ∀ d h, d ∈ dayNamesList → h < 24 →
      (heatReindexed fdf).lookup (d, h) = some (heatCount fdf d h) := by
    intro d h hd hh
    unfold heatReindexed
    rw [lookup_map_self (fun p => ((heatGrouped fdf).lookup p).getD 0) _ _,
      if_pos (mem_fullIdx d h hd hh), heatGrouped_lookup]
    by_cases hmem : (d, h) ∈ (fdf.map heatKey).dedup
    · rw [if_pos hmem]
      rfl
    · rw [if_neg hmem]
      rw [heatCount_eq_zero_of_not_mem fdf d h hmem]
      rfl
  refine ⟨?_, ?_, hlook, ?_⟩
  · unfold heatReindexed
    rw [List.length_map, fullIdx_length]
  · unfold heatReindexed
    rw [List.map_map]
    exact List.map_id _
  · intro p c hpc
    unfold heatGrouped at hpc
    rw [List.mem_map] at hpc
    rcases hpc with ⟨p0, hp0, heq⟩
    have hp : p0 = p := congrArg Prod.fst heq
    subst hp
    have hc : c = heatCount fdf p0.1 p0.2 := (congrArg Prod.snd heq).symm
    subst hc
    rw [List.mem_dedup, List.mem_map] at hp0
    rcases hp0 with ⟨r, hr, hkey⟩
    rcases hwf r hr with ⟨hd, hh⟩
    have hd0 : p0.1 ∈ dayNamesList := by rw [← hkey]; exact hd
    have hh0 : p0.2 < 24 := by rw [← hkey]; exact hh
    have := hlook p0.1 p0.2 hd0 hh0
    rwa [Prod.mk.eta] at this

/-- C9 witness: a singleton view yields the full 168-row heat table. -/
theorem heatReindexed_spec_witness :
    (∀ r ∈ [sampleNoGeo], r.dayOfWeek ∈ dayNamesList ∧ r.hour < 24) ∧
    (heatReindexed [sampleNoGeo]).length = 168 :=
  ⟨by decide, (heatReindexed_spec [sampleNoGeo] (by decide) (by simp)).1⟩

theorem foldr_max_mem (l : List Nat) (h : l ≠ []) : l.foldr max 0 ∈ l := by
  induction l with
  | nil => exact absurd rfl h
  | cons a t ih =>
      simp only [List.foldr_cons]
      rcases max_choice a (t.foldr max 0) with hm | hm
      · rw [hm]
        exact List.mem_cons_self a t
      · rw [hm]
        cases t with
        | nil => simp_all
        | cons b u => exact List.mem_cons_of_mem _ (ih (by simp))

theorem seriesMode_ne_nil {α : Type} [DecidableEq α] (l : List α)
    (h : l ≠ []) : seriesMode l ≠ [] := by
  rcases List.exists_mem_of_ne_nil l h with ⟨a, ha⟩
  have hd : a ∈ l.dedup := List.mem_dedup.mpr ha
  have hcne : l.dedup.map (fun w => l.count w) ≠ [] := by
    intro hc
    rw [List.map_eq_nil_iff] at hc
    rw [hc] at hd
    exact List.not_mem_nil a hd
  have hmem := foldr_max_mem _ hcne
  rw [List.mem_map] at hmem
  rcases hmem with ⟨v, hv, hveq⟩
  have hvmode : v ∈ seriesMode l :=
    List.mem_filter.mpr ⟨hv, by simp [hveq]⟩
  intro hnil
  rw [hnil] at hvmode
  exact List.not_mem_nil v hvmode

/-- C10: the Top Location and Peak Hour cards never index into an empty
mode series — on every filtered view, empty or not, the card computation
produces a value, and an empty view yields the `N/A` placeholder for both
cards. -/
theorem metric_mode_safety (fdf : List DRow) :
    (topLocation fdf).isSome = true ∧ (peakHour fdf).isSome = true ∧
    (fdf = [] → topLocation fdf = some "N/A" ∧ peakHour fdf = some "N/A") := by
  by_cases hE : fdf.isEmpty
  · have hnil : fdf = [] := by simpa [List.isEmpty_iff] using hE
    subst hnil
    exact ⟨rfl, rfl, fun _ => ⟨rfl, rfl⟩⟩
  · have hne : fdf ≠ [] := by simpa [List.isEmpty_iff] using hE
    refine ⟨?_, ?_, fun hnil => absurd hnil hne⟩
    · unfold topLocation
      rw [if_neg hE, List.head?_isSome]
      exact seriesMode_ne_nil _ (fun hc => hne (by simpa using hc))
    · unfold peakHour
      rw [if_neg hE, Option.isSome_map', List.head?_isSome]
      exact seriesMode_ne_nil _ (fun hc => hne (by simpa using hc))

/-- C10 witness: on the empty filtered view both cards read `N/A`. -/
theorem metric_mode_safety_witness :
    topLocation [] = some "N/A" ∧ peakHour [] = some "N/A" :=
  (metric_mode_safety []).2.2 rfl

/-- C1 witness: the sample row passes the default filter selection. -/
theorem mem_filtered_df_iff_witness :
    sampleNoGeo ∈ filtered_df [sampleNoGeo] ["THEFT"] [] ArrestChoice.all ↔
      sampleNoGeo ∈ [sampleNoGeo] ∧ sampleNoGeo.primaryType ∈ ["THEFT"] ∧
        (([] : List Int) = [] ∨
          ∃ d, sampleNoGeo.district = some d ∧ d ∈ ([] : List Int)) ∧
        (ArrestChoice.all = .all ∨
          (ArrestChoice.all = .yes ∧ sampleNoGeo.arrest = true) ∨
          (ArrestChoice.all = .no ∧ sampleNoGeo.arrest = false)) :=
  mem_filtered_df_iff [sampleNoGeo] ["THEFT"] [] ArrestChoice.all sampleNoGeo

/-- C6 witness: filtering a concrete one-row session leaves its cache
untouched. -/
theorem applyFilters_preserves_cache_witness :
    (applyFilters ⟨[sampleNoGeo]⟩ ["THEFT"] [] ArrestChoice.all).1 =
      (⟨[sampleNoGeo]⟩ : SessionState) :=
  (applyFilters_preserves_cache ⟨[sampleNoGeo]⟩ ["THEFT"] []
    ArrestChoice.all).1
